import Mathlib

/-!
Verification of the Adam update rule (`chainer/optimizers/adam.py`).

Buffers (numpy/cupy arrays of one common shape) are embedded as functions
`Fin n → ℝ`; floating-point arithmetic is idealised as real arithmetic.
The hyperparameter machinery (`optimizer.Hyperparameter`) and the generic
`UpdateRule.update` dispatcher live in `chainer/optimizer.py`, which is not
part of the sources; those parts are modelled from the specification and
are marked as such in their doc comments.
-/

noncomputable section

namespace Chainer

/-- The four named Adam hyperparameters. -/
inductive HName where
  | alpha
  | beta1
  | beta2
  | eps
  deriving DecidableEq

/-- A Python value stored in a hyperparameter slot: either `None` or a float.
`Adam.__init__` assigns constructor arguments to its node unconditionally,
so `None` itself can be stored. -/
inductive HVal where
  | pynone
  | num (x : ℝ)

/-- Modelled from the spec: a hyperparameter node is a local partial map from
names to stored values plus an optional parent node (prototype-style
inheritance; lookup of a name unset locally falls through to the parent). -/
inductive Hyperparameter where
  | node (localv : HName → Option HVal) (parent : Option Hyperparameter)

/-- Modelled from the spec: `get` returns the local value if the name is set
locally, else delegates to the parent, else fails (`none` = missing). -/
def Hyperparameter.get : Hyperparameter → HName → Option HVal
  | .node l none, n => l n
  | .node l (some p), n =>
    match l n with
    | some v => some v
    | none => p.get n

/-- Modelled from the spec: `set` always creates/overwrites a local entry and
never touches the parent. -/
def Hyperparameter.set : Hyperparameter → HName → HVal → Hyperparameter
  | .node l p, n, v => .node (fun m => if m = n then some v else l m) p

/-- Modelled from the spec: `set_parent` attaches/replaces the parent
reference, keeping the local entries. -/
def Hyperparameter.setParent : Hyperparameter → Hyperparameter → Hyperparameter
  | .node l _, p => .node l (some p)

/-- Modelled from the spec: the constructor makes a node with no local
entries, optionally delegating to a parent. -/
def Hyperparameter.new (parent : Option Hyperparameter) : Hyperparameter :=
  .node (fun _ => none) parent

/-- Numeric values of the process-wide Adam defaults, as assigned at the top
of `adam.py`. -/
def defaultVal : HName → ℝ
  | .alpha => 0.001
  | .beta1 => 0.9
  | .beta2 => 0.999
  | .eps => 1e-8

/-- `_default_hyperparam`: the process-wide default node, populated at module
load with the four values above (all set locally, no parent). -/
def defaultHyperparam : Hyperparameter :=
  .node (fun n => some (.num (defaultVal n))) none

/-- A Python call-site argument: omitted, or explicitly passed a value. -/
inductive PyArg where
  | omitted
  | passed (v : HVal)

/-- The value a Python parameter with declared default `d` binds. -/
def PyArg.toVal (d : HVal) : PyArg → HVal
  | .omitted => d
  | .passed v => v

/-- The local entry `AdamRule.__init__` leaves for one argument: its declared
default is `None`, and it stores the argument only under `if arg is not
None`. -/
def adamRuleLocal (a : PyArg) : Option HVal :=
  match a.toVal .pynone with
  | .pynone => none
  | .num x => some (.num x)

/-- `AdamRule.__init__`: the rule's node starts as
`Hyperparameter(_default_hyperparam)` (delegating to the process-wide
defaults) and then each non-`None` argument is set locally. -/
def AdamRule.initHyperparam (alpha beta1 beta2 eps : PyArg) : Hyperparameter :=
  Hyperparameter.node
    (fun n =>
      match n with
      | .alpha => adamRuleLocal alpha
      | .beta1 => adamRuleLocal beta1
      | .beta2 => adamRuleLocal beta2
      | .eps => adamRuleLocal eps)
    (some defaultHyperparam)

/-- Module-level state of `adam.py`: the mutable process-wide default node,
and the values captured by `Adam.__init__`'s default-argument expressions
(`alpha=_default_hyperparam.alpha`, ...), which Python evaluates once at
class-definition time. -/
structure AdamModuleState where
  defaultNode : Hyperparameter
  ctorDefault : HName → HVal

/-- The module state right after `import`: the default node holds the four
default values, and `Adam.__init__`'s default-argument expressions have been
evaluated against it. -/
def adamModuleLoad : AdamModuleState :=
  ⟨defaultHyperparam, fun n => (defaultHyperparam.get n).getD .pynone⟩

/-- Mutating the process-wide default node after load. Python default
arguments were already evaluated, so `ctorDefault` is untouched. -/
def AdamModuleState.setDefault (s : AdamModuleState) (n : HName) (v : HVal) :
    AdamModuleState :=
  ⟨s.defaultNode.set n v, s.ctorDefault⟩

/-- `Adam.__init__`: creates a fresh parentless `Hyperparameter()` and
assigns all four attributes unconditionally, each argument defaulting to
the value captured at class-definition time when omitted. -/
def AdamModuleState.adamInit (s : AdamModuleState)
    (alpha beta1 beta2 eps : PyArg) : Hyperparameter :=
  Hyperparameter.node
    (fun n =>
      some (match n with
        | .alpha => alpha.toVal (s.ctorDefault .alpha)
        | .beta1 => beta1.toVal (s.ctorDefault .beta1)
        | .beta2 => beta2.toVal (s.ctorDefault .beta2)
        | .eps => eps.toVal (s.ctorDefault .eps)))
    none

/-- `Adam.__init__` in the freshly loaded module. -/
def Adam.init (alpha beta1 beta2 eps : PyArg) : Hyperparameter :=
  adamModuleLoad.adamInit alpha beta1 beta2 eps

/-- `Adam.setup_update_rule`: constructs `AdamRule()` (all arguments omitted)
and re-parents its node to the optimizer's node `optNode`. -/
def Adam.setupRuleHyperparam (optNode : Hyperparameter) : Hyperparameter :=
  (AdamRule.initHyperparam .omitted .omitted .omitted .omitted).setParent optNode

/-- `AdamRule.lr`: the bias-corrected learning rate, a property recomputed
from the current `t` and hyperparameters at every access. -/
def AdamRule.lr (alpha beta1 beta2 : ℝ) (t : ℕ) : ℝ :=
  let fix1 := 1 - beta1 ^ t
  let fix2 := 1 - beta2 ^ t
  alpha * Real.sqrt fix2 / fix1

/-- `AdamRule.update_core_cpu`: three whole-buffer in-place operations, in
source order (`m` first, then `v`, then `data` using the updated `m`, `v`).
Returns `(data, m, v)` after the update. -/
def update_core_cpu {n : ℕ} (alpha beta1 beta2 eps : ℝ) (t : ℕ)
    (data grad m v : Fin n → ℝ) : (Fin n → ℝ) × (Fin n → ℝ) × (Fin n → ℝ) :=
  let m2 := fun i => m i + (1 - beta1) * (grad i - m i)
  let v2 := fun i => v i + (1 - beta2) * (grad i * grad i - v i)
  let lr := AdamRule.lr alpha beta1 beta2 t
  let data2 := fun i => data i - lr * m2 i / (Real.sqrt (v2 i) + eps)
  (data2, m2, v2)

/-- The per-element body of the `adam` elementwise kernel in
`AdamRule.update_core_gpu`, with its scalar inputs `grad, lr,
one_minus_beta1, one_minus_beta2, eps` and per-element state
`param, m, v`; returns the updated `(param, m, v)`. -/
def adamKernel (grad lr one_minus_beta1 one_minus_beta2 eps param m v : ℝ) :
    ℝ × ℝ × ℝ :=
  let m2 := m + one_minus_beta1 * (grad - m)
  let v2 := v + one_minus_beta2 * (grad * grad - v)
  let param2 := param - lr * m2 / (Real.sqrt v2 + eps)
  (param2, m2, v2)

/-- `AdamRule.update_core_gpu`: the kernel applied independently to every
element, with `self.lr`, `1 - beta1`, `1 - beta2` and `eps` broadcast.
Returns `(data, m, v)` after the update. -/
def update_core_gpu {n : ℕ} (alpha beta1 beta2 eps : ℝ) (t : ℕ)
    (data grad m v : Fin n → ℝ) : (Fin n → ℝ) × (Fin n → ℝ) × (Fin n → ℝ) :=
  let lr := AdamRule.lr alpha beta1 beta2 t
  (fun i => (adamKernel (grad i) lr (1 - beta1) (1 - beta2) eps (data i) (m i) (v i)).1,
   fun i => (adamKernel (grad i) lr (1 - beta1) (1 - beta2) eps (data i) (m i) (v i)).2.1,
   fun i => (adamKernel (grad i) lr (1 - beta1) (1 - beta2) eps (data i) (m i) (v i)).2.2)

/-- A parameter: a data buffer and an optional gradient buffer. -/
structure Param (n : ℕ) where
  data : Fin n → ℝ
  grad : Option (Fin n → ℝ)

/-- The mutable per-rule bookkeeping: the `enabled` flag, the step counter
`t`, and the lazily created state buffers `m`, `v`. -/
structure RuleState (n : ℕ) where
  enabled : Bool
  t : ℕ
  moments : Option ((Fin n → ℝ) × (Fin n → ℝ))

/-- Rule creation: enabled, `t = 0`, state not yet initialised. -/
def RuleState.new (n : ℕ) : RuleState n :=
  ⟨true, 0, none⟩

/-- `AdamRule.init_state`: `m` and `v` allocated as zero-filled buffers of
the parameter's shape. -/
def adamInitState (n : ℕ) : (Fin n → ℝ) × (Fin n → ℝ) :=
  (fun _ => 0, fun _ => 0)

/-- Modelled from the spec: the generic `UpdateRule.update` dispatcher of
`chainer/optimizer.py` (not under the sources). It is a no-op when the rule
is disabled or the parameter has no gradient; otherwise it initialises the
state buffers on first use, increments `t` by one, and invokes the
backend core (the host core here) on the buffers in place. -/
def ruleUpdate {n : ℕ} (alpha beta1 beta2 eps : ℝ) (r : RuleState n)
    (p : Param n) : RuleState n × Param n :=
  if r.enabled then
    match p.grad with
    | none => (r, p)
    | some g =>
      let mv := r.moments.getD (adamInitState n)
      let t2 := r.t + 1
      let out := update_core_cpu alpha beta1 beta2 eps t2 p.data g mv.1 mv.2
      (⟨r.enabled, t2, some (out.2.1, out.2.2)⟩, ⟨out.1, p.grad⟩)
  else (r, p)

/-- A sequence of host-core invocations on one parameter, threading the step
counter (incremented before each core call, as `update` does) and the
`(data, m, v)` buffers through the list of per-step gradients. -/
def runUpdates {n : ℕ} (alpha beta1 beta2 eps : ℝ) :
    List (Fin n → ℝ) → ℕ → (Fin n → ℝ) × (Fin n → ℝ) × (Fin n → ℝ) →
    ℕ × ((Fin n → ℝ) × (Fin n → ℝ) × (Fin n → ℝ))
  | [], t, s => (t, s)
  | g :: gs, t, s =>
    runUpdates alpha beta1 beta2 eps gs (t + 1)
      (update_core_cpu alpha beta1 beta2 eps (t + 1) s.1 g s.2.1 s.2.2)

/-- Local resolution lemma: `set` followed by `get` of the same name returns
the value just stored, whatever the parent is. -/
theorem Hyperparameter.get_set_self (h : Hyperparameter) (n : HName) (v : HVal) :
    (h.set n v).get n = some v := by
  cases h with
  | node l p => cases p <;> simp [Hyperparameter.set, Hyperparameter.get]

/-- C1: one invocation of the host update core performs exactly, elementwise
over the whole buffer, `m += (1-beta1)*(grad-m)`, then
`v += (1-beta2)*(grad*grad-v)`, then `data -= lr*m/(sqrt(v)+eps)` with the
already-updated `m` and `v` and the derived learning rate `lr`; each output
entry is exactly this function of the same-index entries of `data`, `grad`,
`m`, `v` and the scalar hyperparameters, so nothing else is read or
written. -/
theorem c1_update_core_cpu_elementwise {n : ℕ} (alpha beta1 beta2 eps : ℝ)
    (t : ℕ) (data grad m v : Fin n → ℝ) (i : Fin n) :
    (update_core_cpu alpha beta1 beta2 eps t data grad m v).2.1 i
        = m i + (1 - beta1) * (grad i - m i)
    ∧ (update_core_cpu alpha beta1 beta2 eps t data grad m v).2.2 i
        = v i + (1 - beta2) * (grad i * grad i - v i)
    ∧ (update_core_cpu alpha beta1 beta2 eps t data grad m v).1 i
        = data i -
            AdamRule.lr alpha beta1 beta2 t * (m i + (1 - beta1) * (grad i - m i)) /
              (Real.sqrt (v i + (1 - beta2) * (grad i * grad i - v i)) + eps) :=
  ⟨rfl, rfl, rfl⟩

/-- C2: for every step counter `t ≥ 1`, the derived learning rate is
`alpha * sqrt(1 - beta2^t) / (1 - beta1^t)`, a pure function of the current
`t` and hyperparameter values (recomputed at every evaluation, never
cached). -/
theorem c2_lr_formula (alpha beta1 beta2 : ℝ) (t : ℕ) (ht : 1 ≤ t) :
    AdamRule.lr alpha beta1 beta2 t
      = alpha * Real.sqrt (1 - beta2 ^ t) / (1 - beta1 ^ t) :=
  rfl

/-- Witness for C2 at `t = 1` with the default hyperparameters. -/
theorem c2_lr_formula_witness :
    1 ≤ 1
    ∧ AdamRule.lr 0.001 0.9 0.999 1
        = 0.001 * Real.sqrt (1 - 0.999 ^ 1) / (1 - 0.9 ^ 1) :=
  ⟨le_refl 1, c2_lr_formula 0.001 0.9 0.999 1 (le_refl 1)⟩

/-- C3: on the same input buffers, step counter and hyperparameters, the host
core and the device core produce exactly equal `data`, `m`, `v` over the
reals (hence certainly within any floating-point tolerance). -/
theorem c3_cpu_gpu_equiv {n : ℕ} (alpha beta1 beta2 eps : ℝ) (t : ℕ)
    (data grad m v : Fin n → ℝ) :
    update_core_cpu alpha beta1 beta2 eps t data grad m v
      = update_core_gpu alpha beta1 beta2 eps t data grad m v :=
  rfl

/-- C8: with the default hyperparameters and `t = 1`, the derived learning
rate is `0.001 * sqrt(0.001) / 0.1` (that is, `fix1 = 0.1`, `fix2 = 0.001`),
which lies in `[0.0003162, 0.0003163)`. -/
theorem c8_lr_default_t1 :
    AdamRule.lr 0.001 0.9 0.999 1 = 0.001 * Real.sqrt 0.001 / 0.1
    ∧ 0.0003162 ≤ AdamRule.lr 0.001 0.9 0.999 1
    ∧ AdamRule.lr 0.001 0.9 0.999 1 < 0.0003163 := by
  have hval : AdamRule.lr 0.001 0.9 0.999 1 = 0.001 * Real.sqrt 0.001 / 0.1 := by
    simp only [AdamRule.lr]
    norm_num
  have hmul : (0.001 : ℝ) * Real.sqrt 0.001 / 0.1 = 0.01 * Real.sqrt 0.001 := by
    ring
  have hs1 : (0.03162 : ℝ) ≤ Real.sqrt 0.001 := by
    rw [show (0.03162 : ℝ) = √(0.03162 ^ 2) by
          rw [Real.sqrt_sq (by norm_num)]]
    exact Real.sqrt_le_sqrt (by norm_num)
  have hs2 : Real.sqrt 0.001 < 0.03163 := by
    rw [Real.sqrt_lt' (by norm_num)]
    norm_num
  refine ⟨hval, ?_, ?_⟩ <;> rw [hval, hmul] <;> nlinarith [hs1, hs2]

/-- One host-core step keeps every entry of `v` nonnegative when
`beta2 ∈ [0,1]`: the updated entry is `beta2*v + (1-beta2)*grad^2`. -/
theorem update_core_cpu_v_nonneg {n : ℕ} (alpha beta1 beta2 eps : ℝ) (t : ℕ)
    (data grad m v : Fin n → ℝ) (hb0 : 0 ≤ beta2) (hb1 : beta2 ≤ 1)
    (hv : ∀ i, 0 ≤ v i) (i : Fin n) :
    0 ≤ (update_core_cpu alpha beta1 beta2 eps t data grad m v).2.2 i := by
  have h := hv i
  simp only [update_core_cpu]
  nlinarith [mul_self_nonneg (grad i), mul_nonneg hb0 (hv i),
    mul_nonneg (by linarith : (0 : ℝ) ≤ 1 - beta2) (mul_self_nonneg (grad i))]

/-- Any sequence of host-core steps keeps every entry of `v` nonnegative
when `beta2 ∈ [0,1]` and it starts nonnegative. -/
theorem runUpdates_v_nonneg {n : ℕ} (alpha beta1 beta2 eps : ℝ)
    (hb0 : 0 ≤ beta2) (hb1 : beta2 ≤ 1) (gs : List (Fin n → ℝ)) (t : ℕ)
    (s : (Fin n → ℝ) × (Fin n → ℝ) × (Fin n → ℝ)) (hv : ∀ i, 0 ≤ s.2.2 i) :
    ∀ i, 0 ≤ (runUpdates alpha beta1 beta2 eps gs t s).2.2.2 i := by
  induction gs generalizing t s with
  | nil => simpa [runUpdates] using hv
  | cons g gs ih =>
    intro i
    simp only [runUpdates]
    exact ih (t + 1) _ (fun j =>
      update_core_cpu_v_nonneg alpha beta1 beta2 eps (t + 1) s.1 g s.2.1 s.2.2
        hb0 hb1 hv j) i

/-- C9: starting from the zero-initialised second-moment buffer, after any
number of host-core updates every entry of `v` is nonnegative (given
`beta2 ∈ [0,1]`), so the divisor `sqrt(v) + eps` is strictly positive
whenever `eps > 0` and the parameter update never divides by zero. -/
theorem c9_divisor_positive {n : ℕ} (alpha beta1 beta2 eps : ℝ) (t0 : ℕ)
    (hb0 : 0 ≤ beta2) (hb1 : beta2 ≤ 1) (heps : 0 < eps)
    (gs : List (Fin n → ℝ)) (data m : Fin n → ℝ) (i : Fin n) :
    0 ≤ (runUpdates alpha beta1 beta2 eps gs t0 (data, m, fun _ => 0)).2.2.2 i
    ∧ 0 < Real.sqrt
          ((runUpdates alpha beta1 beta2 eps gs t0 (data, m, fun _ => 0)).2.2.2 i)
        + eps := by
  have h := runUpdates_v_nonneg alpha beta1 beta2 eps hb0 hb1 gs t0
    (data, m, fun _ => 0) (fun _ => le_refl 0) i
  exact ⟨h, add_pos_of_nonneg_of_pos (Real.sqrt_nonneg _) heps⟩

/-- Witness for C9: one concrete update step on a one-element buffer with
the default hyperparameters. -/
theorem c9_divisor_positive_witness :
    (0 : ℝ) ≤ 0.999 ∧ (0.999 : ℝ) ≤ 1 ∧ (0 : ℝ) < 1e-8
    ∧ (0 ≤ (runUpdates 0.001 0.9 0.999 1e-8 [fun _ => 0.5] 0
            ((fun _ => 1), (fun _ => 0), fun _ => 0)).2.2.2 (0 : Fin 1)
        ∧ 0 < Real.sqrt
              ((runUpdates 0.001 0.9 0.999 1e-8 [fun _ => 0.5] 0
                ((fun _ => 1), (fun _ => 0), fun _ => 0)).2.2.2 (0 : Fin 1))
            + 1e-8) :=
  ⟨by norm_num, by norm_num, by norm_num,
    c9_divisor_positive 0.001 0.9 0.999 1e-8 0 (by norm_num) (by norm_num)
      (by norm_num) [fun _ => 0.5] (fun _ => 1) (fun _ => 0) (0 : Fin 1)⟩

/-- C6: if the rule is disabled or the parameter has no gradient buffer,
`update` leaves the rule state (including `t`, `m`, `v`) and the parameter
completely unchanged: a silent no-op, not an error. -/
theorem c6_update_noop {n : ℕ} (alpha beta1 beta2 eps : ℝ) (r : RuleState n)
    (p : Param n) (h : r.enabled = false ∨ p.grad = none) :
    ruleUpdate alpha beta1 beta2 eps r p = (r, p) := by
  rcases h with h | h
  · simp [ruleUpdate, h]
  · cases he : r.enabled <;> simp [ruleUpdate, h, he]

/-- Witness for C6: a disabled rule on a one-element parameter. -/
theorem c6_update_noop_witness :
    ((RuleState.mk false 5 none : RuleState 1).enabled = false
      ∨ (Param.mk (fun _ => (1 : ℝ)) none : Param 1).grad = none)
    ∧ ruleUpdate 0.001 0.9 0.999 1e-8 (RuleState.mk false 5 none)
        (Param.mk (fun _ => (1 : ℝ)) none : Param 1)
      = (RuleState.mk false 5 none, Param.mk (fun _ => (1 : ℝ)) none) :=
  ⟨Or.inl rfl,
    c6_update_noop 0.001 0.9 0.999 1e-8 (RuleState.mk false 5 none)
      (Param.mk (fun _ => (1 : ℝ)) none) (Or.inl rfl)⟩

/-- C7: one `update` call increments `t` by exactly 1 when the rule is
enabled and a gradient is present, and leaves `t` unchanged otherwise; `t`
starts at 0 at rule creation. -/
theorem c7_t_counter {n : ℕ} (alpha beta1 beta2 eps : ℝ) (r : RuleState n)
    (p : Param n) :
    (ruleUpdate alpha beta1 beta2 eps r p).1.t
      = (if r.enabled && p.grad.isSome then r.t + 1 else r.t)
    ∧ (RuleState.new n).t = 0 := by
  refine ⟨?_, rfl⟩
  cases hg : p.grad <;> cases he : r.enabled <;> simp [ruleUpdate, hg, he]

/-- C5: for a rule created by `setup_update_rule`, delegation to the
optimizer's node is live: after `set(nm, y)` on the optimizer's node the
rule resolves `nm` to `y` as long as it has no local override, while a rule
that set a local override `w` resolves `nm` to `w` both before and after the
optimizer-level change. -/
theorem c5_live_delegation (optNode : Hyperparameter) (nm : HName) (y : ℝ) :
    (Adam.setupRuleHyperparam (optNode.set nm (.num y))).get nm = some (.num y)
    ∧ ∀ w : ℝ,
        ((Adam.setupRuleHyperparam (optNode.set nm (.num y))).set nm (.num w)).get nm
            = some (.num w)
        ∧ ((Adam.setupRuleHyperparam optNode).set nm (.num w)).get nm
            = some (.num w) := by
  refine ⟨?_, fun w => ⟨?_, ?_⟩⟩
  · cases nm <;>
      simp [Adam.setupRuleHyperparam, AdamRule.initHyperparam,
        Hyperparameter.setParent, adamRuleLocal, PyArg.toVal,
        Hyperparameter.get, Hyperparameter.get_set_self]
  · exact Hyperparameter.get_set_self _ nm (.num w)
  · exact Hyperparameter.get_set_self _ nm (.num w)

/-- C4 fails as stated: `Adam.__init__` assigns its arguments to the
hyperparameter node unconditionally, so explicitly passing `None` for
`alpha` stores `None` instead of the process-wide default 0.001, and is not
equivalent to omitting the argument. -/
theorem c4_counterexample :
    (Adam.init (.passed .pynone) .omitted .omitted .omitted).get .alpha
        = some .pynone
    ∧ (Adam.init (.passed .pynone) .omitted .omitted .omitted).get .alpha
        ≠ some (.num (defaultVal .alpha))
    ∧ (Adam.init (.passed .pynone) .omitted .omitted .omitted).get .alpha
        ≠ (Adam.init .omitted .omitted .omitted .omitted).get .alpha := by
  refine ⟨rfl, ?_, ?_⟩ <;>
    · intro h
      simp only [Adam.init, AdamModuleState.adamInit, adamModuleLoad,
        Hyperparameter.get, PyArg.toVal, defaultHyperparam, Option.getD,
        Option.some.injEq] at h
      exact HVal.noConfusion h

/-- C4 amended: for the per-rule constructor, omitting an argument and
passing `None` are equivalent and both resolve every hyperparameter to the
process-wide default; for the optimizer constructor, omitted arguments
yield the process-wide defaults (bound at class-definition time), but an
argument explicitly passed as `None` is stored as `None` rather than the
default. -/
theorem c4_amended_defaults :
    (∀ nm, (AdamRule.initHyperparam .omitted .omitted .omitted .omitted).get nm
        = some (.num (defaultVal nm)))
    ∧ AdamRule.initHyperparam (.passed .pynone) (.passed .pynone)
          (.passed .pynone) (.passed .pynone)
        = AdamRule.initHyperparam .omitted .omitted .omitted .omitted
    ∧ (∀ nm, (Adam.init .omitted .omitted .omitted .omitted).get nm
        = some (.num (defaultVal nm)))
    ∧ (Adam.init (.passed .pynone) .omitted .omitted .omitted).get .alpha
        = some .pynone := by
  refine ⟨fun nm => ?_, rfl, fun nm => ?_, rfl⟩ <;> cases nm <;> rfl

/-- The module-level mutation of the default node never touches the values
already bound to `Adam.__init__`'s default arguments. -/
theorem foldl_setDefault_ctorDefault (ms : List (HName × HVal))
    (s : AdamModuleState) :
    (ms.foldl (fun s2 nv => s2.setDefault nv.1 nv.2) s).ctorDefault
      = s.ctorDefault := by
  induction ms generalizing s with
  | nil => rfl
  | cons nv ms ih => simpa [AdamModuleState.setDefault] using ih (s.setDefault nv.1 nv.2)

/-- C10: after any sequence of mutations of the process-wide default node,
an optimizer constructed with all arguments omitted still receives the
values the default node held at module load (alpha 0.001, beta1 0.9,
beta2 0.999, eps 1e-8): Python evaluated the default-argument expressions
once, at class-definition time. -/
theorem c10_ctor_defaults_fixed_at_load (ms : List (HName × HVal)) (nm : HName) :
    ((ms.foldl (fun s nv => s.setDefault nv.1 nv.2) adamModuleLoad).adamInit
        .omitted .omitted .omitted .omitted).get nm
      = some (.num (defaultVal nm)) := by
  have h := foldl_setDefault_ctorDefault ms adamModuleLoad
  cases nm <;>
    · simp only [AdamModuleState.adamInit, Hyperparameter.get, PyArg.toVal, h]
      rfl

end Chainer
